import Mathlib

/-!
Verification of the DeutschFreund learner-progress logic.

The placement test lives in the onboarding view (part_006 of the sources):
an adaptive five-tier test that asks blocks of up to 10 questions per tier,
promotes on a block score of 8 or more, concludes on 6 or 7, and concludes
one tier down on 5 or less.  The model below is a direct translation of the
script of that component: the reactive refs become fields of a state record,
and each handler becomes a function on that record.
-/

namespace Placement

/-- One placement question as delivered by the backend
(interface PlacementQuestion in useApi.ts). -/
structure PlacementQuestion where
  id : Nat
  level : String
  options : List String
  correct_index : Nat
deriving Repr, DecidableEq

/-- One entry of the levelResults record in the onboarding component:
`{ score, percent, passed }`. -/
structure LevelResult where
  score : Nat
  percent : Nat
  passed : Bool
deriving Repr, DecidableEq

/-- Payload of completePlacementTest (interface PlacementTestSubmit in
useApi.ts). `details` keeps the insertion order of Object.entries. -/
structure PlacementTestSubmit where
  user_id : Nat
  level_result : String
  questions_total : Nat
  correct_total : Nat
  details : List (String × String)
deriving Repr, DecidableEq

/-- The `step` ref of the component. -/
inductive Step where
  | intro
  | question
  | result
deriving Repr, DecidableEq

/-- The reactive state of the onboarding component.  The two `ghost` fields
are verification instrumentation only: `ghostCorrect` counts every answer the
component graded as correct, and `ghostEvaluated` lists the tier names in the
order their blocks were evaluated.  No operation ever reads them, so the
source-visible behaviour is unchanged; they let theorems speak about the whole
history of a session. -/
structure PlacementState where
  step : Step
  userId : Nat
  questions : List PlacementQuestion
  currentLevelIndex : Nat
  currentBlockIndex : Nat
  currentLevelScore : Nat
  totalQuestionsAnswered : Nat
  levelResults : List (String × LevelResult)
  finalLevel : String
  submitted : Option PlacementTestSubmit
  ghostCorrect : Nat
  ghostEvaluated : List String
deriving Repr, DecidableEq

/-- The fixed tier list of the component: A1, A2, B1, B2, C1. -/
def levels : List String := ["A1", "A2", "B1", "B2", "C1"]

/-- Indexing `levels[j]`; out-of-range indexing yields undefined in
JavaScript, which we render as the marker string "undefined". -/
def levelAt (j : Nat) : String := levels.getD j "undefined"

/-- The computed `currentLevel = levels[currentLevelIndex]`. -/
def currentLevel (s : PlacementState) : String := levelAt s.currentLevelIndex

/-- The computed `currentBlockQuestions = questions.filter(q => q.level ===
currentLevel)`. -/
def currentBlockQuestions (s : PlacementState) : List PlacementQuestion :=
  s.questions.filter (fun q => q.level == currentLevel s)

/-- The computed `currentQuestion = currentBlockQuestions[currentBlockIndex]`. -/
def currentQuestion (s : PlacementState) : Option PlacementQuestion :=
  (currentBlockQuestions s)[s.currentBlockIndex]?

/-- JavaScript object assignment `m[k] = v`: replace the value at an existing
key in place, or append a fresh key at the end (insertion order). -/
def setEntry {α : Type} (m : List (String × α)) (k : String) (v : α) :
    List (String × α) :=
  match m with
  | [] => [(k, v)]
  | (k0, v0) :: rest =>
    if k0 = k then (k, v) :: rest else (k0, v0) :: setEntry rest k v

/-- Key lookup in such a record. -/
def lookupKey {α : Type} (m : List (String × α)) (k : String) : Option α :=
  match m with
  | [] => none
  | (k0, v0) :: rest => if k0 = k then some v0 else lookupKey rest k

/-- Sum of the stored block scores, as computed by the
`for (const res of Object.values(levelResults)) totalCorrect += res.score`
loop of finishTest. -/
def sumScores (m : List (String × LevelResult)) : Nat :=
  (m.map (fun p => p.2.score)).sum

/-- The handler `finishTest(resultLevel)`: record the final level, switch to the result
screen, build the per-tier `details` strings, sum the stored scores and post
the PlacementTestSubmit payload. -/
def finishTest (s : PlacementState) (resultLevel : String) : PlacementState :=
  let details := s.levelResults.map (fun p => (p.1, toString p.2.score ++ "/10"))
  let totalCorrect := sumScores s.levelResults
  { s with
    finalLevel := resultLevel
    step := Step.result
    submitted := some
      { user_id := s.userId
        level_result := resultLevel
        questions_total := s.totalQuestionsAnswered
        correct_total := totalCorrect
        details := details } }

/-- The handler `evaluateBlock()`: store the block result for the current tier, then the
three-way decision — score 8..10 promotes (or finishes at the highest tier),
6..7 finishes at the current tier, 0..5 finishes one tier down with the
fallback to A1 at the bottom. -/
def evaluateBlock (s : PlacementState) : PlacementState :=
  let score := s.currentLevelScore
  let levelName := currentLevel s
  let s1 : PlacementState :=
    { s with
      levelResults := setEntry s.levelResults levelName
        { score := score, percent := score * 10, passed := decide (6 ≤ score) }
      ghostEvaluated := s.ghostEvaluated ++ [levelName] }
  if 8 ≤ score then
    if s1.currentLevelIndex < levels.length - 1 then
      { s1 with
        currentLevelIndex := s1.currentLevelIndex + 1
        currentBlockIndex := 0
        currentLevelScore := 0 }
    else
      finishTest s1 levelName
  else if 6 ≤ score then
    finishTest s1 levelName
  else
    let prevLevel :=
      if 0 < s1.currentLevelIndex then levelAt (s1.currentLevelIndex - 1) else "A1"
    finishTest s1 prevLevel

/-- The body of `submitAnswer()` once the guard has passed: grade the selected
option against `correct_index`, clear the selection, advance the block index
and the total counter. -/
def gradeAnswer (s : PlacementState) (sel : Nat) (q : PlacementQuestion) :
    PlacementState :=
  let isCorrect := sel == q.correct_index
  let s1 : PlacementState :=
    if isCorrect then
      { s with
        currentLevelScore := s.currentLevelScore + 1
        ghostCorrect := s.ghostCorrect + 1 }
    else s
  { s1 with
    currentBlockIndex := s1.currentBlockIndex + 1
    totalQuestionsAnswered := s1.totalQuestionsAnswered + 1 }

/-- The completion check `currentBlockIndex >= 10 || currentBlockIndex >=
currentBlockQuestions.length`, evaluated after the increment. -/
def blockFinished (s : PlacementState) : Bool :=
  decide (10 ≤ s.currentBlockIndex) ||
    decide ((currentBlockQuestions s).length ≤ s.currentBlockIndex)

/-- The handler `submitAnswer()`: a no-op when nothing is selected or there is no current
question; otherwise grade and, when the block is complete, evaluate it. -/
def submitAnswer (s : PlacementState) (selectedOption : Option Nat) :
    PlacementState :=
  match selectedOption, currentQuestion s with
  | none, _ => s
  | some _, none => s
  | some sel, some q =>
    let s1 := gradeAnswer s sel q
    if blockFinished s1 then evaluateBlock s1 else s1

/-- One user interaction with the answer button.  The template renders the
question screen (and with it the submit button) only while `step` equals
`question`, so a click can reach submitAnswer only in that step. -/
def clickAnswer (s : PlacementState) (selectedOption : Option Nat) :
    PlacementState :=
  if s.step = Step.question then submitAnswer s selectedOption else s

/-- State right after `startTest()`: all refs at their initial values and the
step moved to the question screen. -/
def initState (uid : Nat) (bank : List PlacementQuestion) : PlacementState :=
  { step := Step.question
    userId := uid
    questions := bank
    currentLevelIndex := 0
    currentBlockIndex := 0
    currentLevelScore := 0
    totalQuestionsAnswered := 0
    levelResults := []
    finalLevel := "A1"
    submitted := none
    ghostCorrect := 0
    ghostEvaluated := [] }

/-- A whole session: start the test, then play a sequence of clicks. -/
def runSession (uid : Nat) (bank : List PlacementQuestion)
    (answers : List (Option Nat)) : PlacementState :=
  answers.foldl clickAnswer (initState uid bank)

/-! ### Helper lemmas about the tier list and record assignment -/

theorem levelAt_mem (j : Nat) (h : j ≤ 4) : levelAt j ∈ levels := by
  interval_cases j <;> decide

theorem levelAt_ne (i j : Nat) (hij : i < j) (hj : j ≤ 4) :
    levelAt i ≠ levelAt j := by
  interval_cases j <;> interval_cases i <;> decide

theorem setEntry_fresh {α : Type} (m : List (String × α)) (k : String) (v : α)
    (h : k ∉ m.map Prod.fst) : setEntry m k v = m ++ [(k, v)] := by
  induction m with
  | nil => rfl
  | cons p rest ih =>
    obtain ⟨k0, v0⟩ := p
    simp only [List.map_cons, List.mem_cons, not_or] at h
    simp only [setEntry]
    rw [if_neg (fun he => h.1 he.symm), ih h.2]
    rfl

theorem lookupKey_setEntry_self {α : Type} (m : List (String × α)) (k : String)
    (v : α) : lookupKey (setEntry m k v) k = some v := by
  induction m with
  | nil => simp [setEntry, lookupKey]
  | cons p rest ih =>
    obtain ⟨k0, v0⟩ := p
    by_cases hp : k0 = k
    · simp [setEntry, lookupKey, hp]
    · simp only [setEntry]
      rw [if_neg hp]
      simp only [lookupKey]
      rw [if_neg hp]
      exact ih

theorem mem_keys_setEntry_self {α : Type} (m : List (String × α)) (k : String)
    (v : α) : k ∈ (setEntry m k v).map Prod.fst := by
  induction m with
  | nil => simp [setEntry]
  | cons p rest ih =>
    obtain ⟨k0, v0⟩ := p
    by_cases hp : k0 = k
    · simp [setEntry, hp]
    · simp only [setEntry]
      rw [if_neg hp]
      simp only [List.map_cons, List.mem_cons]
      exact Or.inr ih

theorem mem_keys_setEntry_of_mem {α : Type} (m : List (String × α))
    (k l : String) (v : α) (h : l ∈ m.map Prod.fst) (hne : l ≠ k) :
    l ∈ (setEntry m k v).map Prod.fst := by
  induction m with
  | nil => simp at h
  | cons p rest ih =>
    obtain ⟨k0, v0⟩ := p
    simp only [List.map_cons, List.mem_cons] at h
    by_cases hp : k0 = k
    · simp only [setEntry]
      rw [if_pos hp]
      simp only [List.map_cons, List.mem_cons]
      rcases h with h | h
      · exact absurd (hp ▸ h) hne
      · exact Or.inr h
    · simp only [setEntry]
      rw [if_neg hp]
      simp only [List.map_cons, List.mem_cons]
      rcases h with h | h
      · exact Or.inl h
      · exact Or.inr (ih h)

theorem sumScores_append (m : List (String × LevelResult)) (k : String)
    (v : LevelResult) : sumScores (m ++ [(k, v)]) = sumScores m + v.score := by
  simp [sumScores]

/-! ### The session invariant

The invariant ties the visible state of the component to the ghost history:
the tier index never leaves 0..4, the final level is always one of the five
tiers, every evaluated tier has an entry in levelResults, and once the result
screen is reached the posted payload reports the true totals. -/

structure Inv (s : PlacementState) : Prop where
  idx_le : s.currentLevelIndex ≤ 4
  final_mem : s.finalLevel ∈ levels
  step_ok : s.step = Step.question ∨ s.step = Step.result
  eval_keys : ∀ l ∈ s.ghostEvaluated, l ∈ s.levelResults.map Prod.fst
  running : s.step = Step.question →
    sumScores s.levelResults + s.currentLevelScore = s.ghostCorrect ∧
    s.submitted = none ∧
    ∀ k ∈ s.levelResults.map Prod.fst,
      ∃ j, j < s.currentLevelIndex ∧ k = levelAt j
  done : s.step = Step.result →
    ∃ r, s.submitted = some r ∧
      r.questions_total = s.totalQuestionsAnswered ∧
      r.correct_total = s.ghostCorrect ∧
      r.level_result = s.finalLevel ∧
      r.details = s.levelResults.map (fun p => (p.1, toString p.2.score ++ "/10"))

theorem inv_finishTest (s : PlacementState) (lvl : String)
    (hl : lvl ∈ levels) (hidx : s.currentLevelIndex ≤ 4)
    (hsum : sumScores s.levelResults = s.ghostCorrect)
    (hkeys : ∀ l ∈ s.ghostEvaluated, l ∈ s.levelResults.map Prod.fst) :
    Inv (finishTest s lvl) := by
  refine ⟨hidx, hl, Or.inr rfl, hkeys, ?_, ?_⟩
  · intro hstep
    exact absurd hstep (by simp [finishTest])
  · intro _
    exact ⟨_, rfl, rfl, hsum, rfl, rfl⟩

theorem keys_append {α : Type} (m : List (String × α)) (k : String) (v : α)
    (ghost : List String) (hg : ∀ l ∈ ghost, l ∈ m.map Prod.fst) :
    ∀ l ∈ ghost ++ [k], l ∈ (m ++ [(k, v)]).map Prod.fst := by
  intro l hl
  simp only [List.mem_append, List.mem_singleton] at hl
  simp only [List.map_append, List.map_cons, List.map_nil, List.mem_append,
    List.mem_singleton]
  rcases hl with hl | hl
  · exact Or.inl (hg l hl)
  · exact Or.inr hl

theorem inv_evaluateBlock (s : PlacementState) (h : Inv s)
    (hq : s.step = Step.question) : Inv (evaluateBlock s) := by
  obtain ⟨hsum, hsub, hkeys⟩ := h.running hq
  have hidx := h.idx_le
  have hfresh : currentLevel s ∉ s.levelResults.map Prod.fst := by
    intro hmem
    obtain ⟨j, hj, hk⟩ := hkeys _ hmem
    exact levelAt_ne j s.currentLevelIndex hj hidx hk.symm
  have hset := setEntry_fresh s.levelResults (currentLevel s)
    { score := s.currentLevelScore, percent := s.currentLevelScore * 10,
      passed := decide (6 ≤ s.currentLevelScore) } hfresh
  simp only [evaluateBlock, hset]
  split_ifs with h8 hlt h6 hpos
  · -- promote: score ≥ 8 and not at the highest tier
    have hlt4 : s.currentLevelIndex < 4 := by simpa [levels] using hlt
    refine ⟨?_, h.final_mem, Or.inl hq, keys_append _ _ _ _ h.eval_keys,
      ?_, ?_⟩
    · show s.currentLevelIndex + 1 ≤ 4
      omega
    · intro _
      refine ⟨?_, hsub, ?_⟩
      · show sumScores _ + 0 = s.ghostCorrect
        rw [Nat.add_zero, sumScores_append]
        exact hsum
      · intro k hk
        simp only [List.map_append, List.map_cons, List.map_nil, List.mem_append,
          List.mem_singleton] at hk
        show ∃ j, j < s.currentLevelIndex + 1 ∧ k = levelAt j
        rcases hk with hk | hk
        · obtain ⟨j, hj, hkj⟩ := hkeys k hk
          exact ⟨j, by omega, hkj⟩
        · exact ⟨s.currentLevelIndex, by omega, hk⟩
    · intro hstep
      have hstep1 : s.step = Step.result := hstep
      rw [hq] at hstep1
      exact absurd hstep1 (by decide)
  · -- score ≥ 8 at the highest tier: conclude with that tier
    exact inv_finishTest _ _ (levelAt_mem _ hidx) hidx
      (by simp only [sumScores_append]; simpa using hsum)
      (keys_append _ _ _ _ h.eval_keys)
  · -- score 6..7: conclude at the current tier
    exact inv_finishTest _ _ (levelAt_mem _ hidx) hidx
      (by simp only [sumScores_append]; simpa using hsum)
      (keys_append _ _ _ _ h.eval_keys)
  · -- score ≤ 5 above the lowest tier: conclude one tier down
    exact inv_finishTest _ _ (levelAt_mem _ (by omega)) hidx
      (by simp only [sumScores_append]; simpa using hsum)
      (keys_append _ _ _ _ h.eval_keys)
  · -- score ≤ 5 at the lowest tier: conclude at the A1 floor
    exact inv_finishTest _ _ (by decide) hidx
      (by simp only [sumScores_append]; simpa using hsum)
      (keys_append _ _ _ _ h.eval_keys)

theorem gradeAnswer_step (s : PlacementState) (sel : Nat)
    (q : PlacementQuestion) : (gradeAnswer s sel q).step = s.step := by
  by_cases hc : (sel == q.correct_index) = true <;>
    simp [gradeAnswer, hc]

theorem inv_gradeAnswer (s : PlacementState) (h : Inv s)
    (hq : s.step = Step.question) (sel : Nat) (q : PlacementQuestion) :
    Inv (gradeAnswer s sel q) := by
  obtain ⟨hsum, hsub, hkeys⟩ := h.running hq
  by_cases hc : (sel == q.correct_index) = true
  · simp only [gradeAnswer, hc, if_true]
    refine ⟨h.idx_le, h.final_mem, Or.inl hq, h.eval_keys, ?_, ?_⟩
    · intro _
      refine ⟨?_, hsub, hkeys⟩
      show sumScores s.levelResults + (s.currentLevelScore + 1)
        = s.ghostCorrect + 1
      omega
    · intro hstep
      have hstep1 : s.step = Step.result := hstep
      rw [hq] at hstep1
      exact absurd hstep1 (by decide)
  · simp only [gradeAnswer, hc, if_false]
    refine ⟨h.idx_le, h.final_mem, Or.inl hq, h.eval_keys, ?_, ?_⟩
    · intro _
      exact ⟨hsum, hsub, hkeys⟩
    · intro hstep
      have hstep1 : s.step = Step.result := hstep
      rw [hq] at hstep1
      exact absurd hstep1 (by decide)

theorem inv_submitAnswer (s : PlacementState) (h : Inv s)
    (hq : s.step = Step.question) (o : Option Nat) :
    Inv (submitAnswer s o) := by
  cases o with
  | none => simpa [submitAnswer] using h
  | some sel =>
    cases hco : currentQuestion s with
    | none => simpa [submitAnswer, hco] using h
    | some q =>
      have hg : Inv (gradeAnswer s sel q) := inv_gradeAnswer s h hq sel q
      have hgs : (gradeAnswer s sel q).step = Step.question := by
        rw [gradeAnswer_step]; exact hq
      by_cases hb : blockFinished (gradeAnswer s sel q)
      · simpa [submitAnswer, hco, hb] using inv_evaluateBlock _ hg hgs
      · simpa [submitAnswer, hco, hb] using hg

theorem inv_clickAnswer (s : PlacementState) (h : Inv s) (o : Option Nat) :
    Inv (clickAnswer s o) := by
  unfold clickAnswer
  split_ifs with hq
  · exact inv_submitAnswer s h hq o
  · exact h

theorem inv_initState (uid : Nat) (bank : List PlacementQuestion) :
    Inv (initState uid bank) := by
  refine ⟨by simp [initState], by simp [initState, levels],
    Or.inl rfl, by simp [initState], ?_, ?_⟩
  · intro _
    exact ⟨by simp [initState, sumScores], rfl, by simp [initState]⟩
  · intro hstep
    exact absurd hstep (by simp [initState])

theorem inv_foldl (answers : List (Option Nat)) :
    ∀ s : PlacementState, Inv s → Inv (answers.foldl clickAnswer s) := by
  induction answers with
  | nil => exact fun _ h => h
  | cons a rest ih => exact fun s h => ih _ (inv_clickAnswer s h a)

theorem inv_runSession (uid : Nat) (bank : List PlacementQuestion)
    (answers : List (Option Nat)) : Inv (runSession uid bank answers) :=
  inv_foldl answers _ (inv_initState uid bank)

/-! ### Field-preservation and monotonicity helpers -/

theorem evaluateBlock_idx_mono (s : PlacementState) :
    s.currentLevelIndex ≤ (evaluateBlock s).currentLevelIndex := by
  simp only [evaluateBlock]
  split_ifs <;> simp [finishTest]

theorem evaluateBlock_total (s : PlacementState) :
    (evaluateBlock s).totalQuestionsAnswered = s.totalQuestionsAnswered := by
  simp only [evaluateBlock]
  split_ifs <;> rfl

theorem evaluateBlock_ghostCorrect (s : PlacementState) :
    (evaluateBlock s).ghostCorrect = s.ghostCorrect := by
  simp only [evaluateBlock]
  split_ifs <;> rfl

theorem gradeAnswer_idx (s : PlacementState) (sel : Nat)
    (q : PlacementQuestion) :
    (gradeAnswer s sel q).currentLevelIndex = s.currentLevelIndex := by
  by_cases hc : (sel == q.correct_index) = true <;> simp [gradeAnswer, hc]

theorem gradeAnswer_total (s : PlacementState) (sel : Nat)
    (q : PlacementQuestion) :
    (gradeAnswer s sel q).totalQuestionsAnswered
      = s.totalQuestionsAnswered + 1 := by
  by_cases hc : (sel == q.correct_index) = true <;> simp [gradeAnswer, hc]

theorem gradeAnswer_ghost_incorrect (s : PlacementState) (sel : Nat)
    (q : PlacementQuestion) (hc : (sel == q.correct_index) = false) :
    (gradeAnswer s sel q).ghostCorrect = s.ghostCorrect := by
  simp [gradeAnswer, hc]

theorem submitAnswer_idx_mono (s : PlacementState) (o : Option Nat) :
    s.currentLevelIndex ≤ (submitAnswer s o).currentLevelIndex := by
  cases o with
  | none => simp [submitAnswer]
  | some sel =>
    cases hco : currentQuestion s with
    | none => simp [submitAnswer, hco]
    | some q =>
      by_cases hb : blockFinished (gradeAnswer s sel q)
      · have h1 := evaluateBlock_idx_mono (gradeAnswer s sel q)
        rw [gradeAnswer_idx] at h1
        simpa [submitAnswer, hco, hb] using h1
      · simp [submitAnswer, hco, hb, gradeAnswer_idx]

theorem clickAnswer_idx_mono (s : PlacementState) (o : Option Nat) :
    s.currentLevelIndex ≤ (clickAnswer s o).currentLevelIndex := by
  unfold clickAnswer
  split_ifs
  · exact submitAnswer_idx_mono s o
  · exact Nat.le_refl _

theorem foldl_idx_mono (l : List (Option Nat)) :
    ∀ s : PlacementState,
      s.currentLevelIndex ≤ (l.foldl clickAnswer s).currentLevelIndex := by
  induction l with
  | nil => exact fun _ => Nat.le_refl _
  | cons a rest ih =>
    intro s
    exact Nat.le_trans (clickAnswer_idx_mono s a) (ih _)

/-! ### Concrete inputs used to exercise the theorems -/

/-- A four-option A1 question. -/
def q1 : PlacementQuestion :=
  { id := 1, level := "A1", options := ["a", "b", "c", "d"], correct_index := 0 }

/-- A one-question A1 bank: a complete tiny session. -/
def bankA1 : List PlacementQuestion := [q1]

/-- A five-question A1 bank: fewer than 10 questions available at the tier. -/
def earlyBank : List PlacementQuestion :=
  [ { id := 1, level := "A1", options := ["a", "b"], correct_index := 0 },
    { id := 2, level := "A1", options := ["a", "b"], correct_index := 0 },
    { id := 3, level := "A1", options := ["a", "b"], correct_index := 0 },
    { id := 4, level := "A1", options := ["a", "b"], correct_index := 0 },
    { id := 5, level := "A1", options := ["a", "b"], correct_index := 0 } ]

/-- A mid-session state about to be evaluated: block of 10 answered at tier
index `idx` with `score` of them correct. -/
def midState (score : Nat) (idx : Nat) : PlacementState :=
  { step := Step.question
    userId := 1
    questions := []
    currentLevelIndex := idx
    currentBlockIndex := 10
    currentLevelScore := score
    totalQuestionsAnswered := 10
    levelResults := []
    finalLevel := "A1"
    submitted := none
    ghostCorrect := score
    ghostEvaluated := [] }

/-- The payload posted by the one-question bankA1 session. -/
def demoSubmit : PlacementTestSubmit :=
  { user_id := 7, level_result := "A1", questions_total := 1, correct_total := 1,
    details := [("A1", "1/10")] }

/-! ### Claim theorems -/

/-- C1: evaluateBlock makes a strict three-way decision on the block score:
8..10 promotes to the next tier and resets the block counters (or, at the
highest tier, concludes with that tier as the final level); 6..7 concludes
with the just-finished tier; 0..5 concludes with the tier below (the
just-finished tier itself at the A1 floor); exactly 6 concludes as-is and
exactly 8 promotes, with no other branch. -/
theorem C1_evaluateBlock_three_way (s : PlacementState) :
    (8 ≤ s.currentLevelScore → s.currentLevelIndex < 4 →
      (evaluateBlock s).currentLevelIndex = s.currentLevelIndex + 1 ∧
      (evaluateBlock s).currentBlockIndex = 0 ∧
      (evaluateBlock s).currentLevelScore = 0 ∧
      (evaluateBlock s).step = s.step) ∧
    (8 ≤ s.currentLevelScore → s.currentLevelIndex = 4 →
      (evaluateBlock s).step = Step.result ∧
      (evaluateBlock s).finalLevel = currentLevel s) ∧
    (6 ≤ s.currentLevelScore → s.currentLevelScore ≤ 7 →
      (evaluateBlock s).step = Step.result ∧
      (evaluateBlock s).finalLevel = currentLevel s) ∧
    (s.currentLevelScore ≤ 5 →
      (evaluateBlock s).step = Step.result ∧
      (evaluateBlock s).finalLevel =
        (if 0 < s.currentLevelIndex then levelAt (s.currentLevelIndex - 1)
         else "A1")) := by
  refine ⟨?_, ?_, ?_, ?_⟩
  · intro h8 hlt
    have hlt2 : s.currentLevelIndex < levels.length - 1 := by
      simpa [levels] using hlt
    simp [evaluateBlock, h8, hlt2]
  · intro h8 hidx
    have hlt2 : ¬ s.currentLevelIndex < levels.length - 1 := by
      simp [levels, hidx]
    simp [evaluateBlock, h8, hlt2, finishTest]
  · intro h6 h7
    have h8 : ¬ 8 ≤ s.currentLevelScore := by omega
    simp [evaluateBlock, h6, h8, finishTest]
  · intro h5
    have h8 : ¬ 8 ≤ s.currentLevelScore := by omega
    have h6 : ¬ 6 ≤ s.currentLevelScore := by omega
    simp [evaluateBlock, h8, h6, finishTest]

/-- Witness for C1: a block with exactly 8 correct at tier index 0 promotes
to tier index 1 and resets the block counters. -/
theorem C1_witness :
    (evaluateBlock (midState 8 0)).currentLevelIndex = 0 + 1 ∧
    (evaluateBlock (midState 8 0)).currentBlockIndex = 0 ∧
    (evaluateBlock (midState 8 0)).currentLevelScore = 0 ∧
    (evaluateBlock (midState 8 0)).step = (midState 8 0).step :=
  (C1_evaluateBlock_three_way (midState 8 0)).1 (by decide) (by decide)

/-- Counterexample to C2: with only 5 questions available at A1 the block
does complete early (after 5 answers), but a perfect 5 out of 5 — 100
percent, well above the 80 percent the claim says should promote — does not
promote: the session concludes via the score ≤ 5 branch at the A1 floor, and
the stored percent is 50, not 100. -/
theorem C2_counterexample :
    (runSession 1 earlyBank (List.replicate 5 (some 0))).step = Step.result ∧
    (runSession 1 earlyBank (List.replicate 5 (some 0))).currentLevelIndex = 0 ∧
    (runSession 1 earlyBank (List.replicate 5 (some 0))).finalLevel = "A1" ∧
    (runSession 1 earlyBank (List.replicate 5 (some 0))).totalQuestionsAnswered
      = 5 ∧
    lookupKey (runSession 1 earlyBank (List.replicate 5 (some 0))).levelResults
      "A1" = some { score := 5, percent := 50, passed := false } :=
  ⟨rfl, rfl, rfl, rfl, rfl⟩

/-- C2 as amended: a tier with fewer than 10 available questions does
complete its block early — the completion check fires when the answered count
reaches 10 or the available count, whichever is smaller — but the thresholds
do not scale with the block size: evaluateBlock never reads the question
bank, so the absolute cutoffs (8 promotes, 6 concludes, below 6 demotes)
apply whatever the available count was. -/
theorem C2_amended_early_block_fixed_thresholds :
    (∀ s : PlacementState, ∀ sel : Nat, ∀ q : PlacementQuestion,
      currentQuestion s = some q →
      submitAnswer s (some sel) =
        (if blockFinished (gradeAnswer s sel q) then
          evaluateBlock (gradeAnswer s sel q)
         else gradeAnswer s sel q)) ∧
    (∀ s : PlacementState,
      blockFinished s = true ↔
        10 ≤ s.currentBlockIndex ∨
          (currentBlockQuestions s).length ≤ s.currentBlockIndex) ∧
    (∀ s : PlacementState, ∀ bank : List PlacementQuestion,
      evaluateBlock { s with questions := bank } =
        { evaluateBlock s with questions := bank }) := by
  refine ⟨?_, ?_, ?_⟩
  · intro s sel q hq
    simp [submitAnswer, hq]
  · intro s
    simp [blockFinished]
  · intro s bank
    simp only [evaluateBlock, currentLevel, currentBlockQuestions, finishTest]
    split_ifs <;> simp [finishTest]

/-- Witness for C2 as amended: in the five-question bank, the fifth answer
completes the block early and triggers evaluation. -/
theorem C2_amended_witness :
    submitAnswer (initState 1 bankA1) (some 0) =
      (if blockFinished (gradeAnswer (initState 1 bankA1) 0 q1) then
        evaluateBlock (gradeAnswer (initState 1 bankA1) 0 q1)
       else gradeAnswer (initState 1 bankA1) 0 q1) :=
  C2_amended_early_block_fixed_thresholds.1 (initState 1 bankA1) 0 q1
    (by decide)

/-- C3: the final level of any session is always a member of the fixed tier
list, and in particular a block score of 5 or less at the lowest tier
concludes the session at the lowest tier, never below it. -/
theorem C3_final_level_in_levels :
    (∀ uid bank answers, (runSession uid bank answers).finalLevel ∈ levels) ∧
    (∀ s : PlacementState, s.currentLevelIndex = 0 → s.currentLevelScore ≤ 5 →
      (evaluateBlock s).step = Step.result ∧
      (evaluateBlock s).finalLevel = "A1") := by
  constructor
  · intro uid bank answers
    exact (inv_runSession uid bank answers).final_mem
  · intro s h0 h5
    have h8 : ¬ 8 ≤ s.currentLevelScore := by omega
    have h6 : ¬ 6 ≤ s.currentLevelScore := by omega
    simp [evaluateBlock, h8, h6, finishTest, h0]

/-- Witness for C3: a failed block (3 of 10) at the lowest tier still
concludes at A1, and a tiny complete session ends inside the tier list. -/
theorem C3_witness :
    (runSession 7 bankA1 [some 0]).finalLevel ∈ levels ∧
    (evaluateBlock (midState 3 0)).step = Step.result ∧
    (evaluateBlock (midState 3 0)).finalLevel = "A1" :=
  ⟨C3_final_level_in_levels.1 7 bankA1 [some 0],
   C3_final_level_in_levels.2 (midState 3 0) rfl (by decide)⟩

/-- C4: whenever a session has concluded and posted a payload, that payload
reports questions_total equal to the number of answers graded during the
session, correct_total equal to the number of correctly answered questions
across all blocks, and a details entry for every tier whose block was
evaluated. -/
theorem C4_submit_totals (uid : Nat) (bank : List PlacementQuestion)
    (answers : List (Option Nat)) (r : PlacementTestSubmit)
    (hr : (runSession uid bank answers).submitted = some r) :
    r.questions_total = (runSession uid bank answers).totalQuestionsAnswered ∧
    r.correct_total = (runSession uid bank answers).ghostCorrect ∧
    ∀ l ∈ (runSession uid bank answers).ghostEvaluated,
      l ∈ r.details.map Prod.fst := by
  have hinv := inv_runSession uid bank answers
  rcases hinv.step_ok with hstep | hstep
  · rw [(hinv.running hstep).2.1] at hr
    cases hr
  · obtain ⟨r0, hr0, hq, hc, _, hd⟩ := hinv.done hstep
    rw [hr0] at hr
    obtain rfl : r0 = r := Option.some.inj hr
    refine ⟨hq, hc, ?_⟩
    intro l hl
    have hmem := hinv.eval_keys l hl
    rw [hd]
    simpa using hmem

/-- Witness for C4: the one-question session posts exactly the payload
demoSubmit, whose totals match the session counters. -/
theorem C4_witness :
    demoSubmit.questions_total
      = (runSession 7 bankA1 [some 0]).totalQuestionsAnswered ∧
    demoSubmit.correct_total = (runSession 7 bankA1 [some 0]).ghostCorrect ∧
    "A1" ∈ demoSubmit.details.map Prod.fst := by
  have h := C4_submit_totals 7 bankA1 [some 0] demoSubmit rfl
  exact ⟨h.1, h.2.1, h.2.2 "A1" (by decide)⟩

/-- Counterexample to C5: the only question of bankA1 has 4 options, yet
submitting the out-of-range option index 7 is not rejected and does not
leave the session unchanged — it is graded as a normal (incorrect) answer
and the cumulative counter advances. -/
theorem C5_counterexample :
    (submitAnswer (initState 1 bankA1) (some 7)).totalQuestionsAnswered = 1 ∧
    submitAnswer (initState 1 bankA1) (some 7) ≠ initState 1 bankA1 :=
  ⟨rfl, by decide⟩

/-- C5 as amended: a submission with no selected option, or when no current
question exists (for example when the questions of the tier are exhausted),
is ignored with the session state unchanged; a question outside the current
tier can never be submitted because the current question is always drawn
from the current-tier filter; but an out-of-range option index is not
rejected: it is graded as an incorrect answer, advancing the cumulative
counter while leaving the correct count unchanged.  No InvalidAnswerError
exists. -/
theorem C5_amended_guard :
    (∀ s : PlacementState, submitAnswer s none = s) ∧
    (∀ s : PlacementState, ∀ o, currentQuestion s = none →
      submitAnswer s o = s) ∧
    (∀ s : PlacementState, ∀ q, currentQuestion s = some q →
      q.level = currentLevel s) ∧
    (∀ s : PlacementState, ∀ sel : Nat, ∀ q, currentQuestion s = some q →
      q.correct_index < q.options.length → q.options.length ≤ sel →
      (submitAnswer s (some sel)).totalQuestionsAnswered
        = s.totalQuestionsAnswered + 1 ∧
      (submitAnswer s (some sel)).ghostCorrect = s.ghostCorrect) := by
  refine ⟨?_, ?_, ?_, ?_⟩
  · intro s
    simp [submitAnswer]
  · intro s o hq
    cases o <;> simp [submitAnswer, hq]
  · intro s q hq
    have hmem : q ∈ currentBlockQuestions s := by
      have := List.getElem?_eq_some_iff.mp hq
      obtain ⟨hlt, hget⟩ := this
      exact hget ▸ List.getElem_mem hlt
    have hp := (List.mem_filter.mp hmem).2
    exact eq_of_beq hp
  · intro s sel q hq hci hsel
    have hne : (sel == q.correct_index) = false :=
      beq_eq_false_iff_ne.mpr (by omega)
    by_cases hb : blockFinished (gradeAnswer s sel q)
    · constructor
      · rw [show submitAnswer s (some sel)
            = evaluateBlock (gradeAnswer s sel q) by
          simp [submitAnswer, hq, hb]]
        rw [evaluateBlock_total, gradeAnswer_total]
      · rw [show submitAnswer s (some sel)
            = evaluateBlock (gradeAnswer s sel q) by
          simp [submitAnswer, hq, hb]]
        rw [evaluateBlock_ghostCorrect, gradeAnswer_ghost_incorrect _ _ _ hne]
    · constructor
      · rw [show submitAnswer s (some sel) = gradeAnswer s sel q by
          simp [submitAnswer, hq, hb]]
        rw [gradeAnswer_total]
      · rw [show submitAnswer s (some sel) = gradeAnswer s sel q by
          simp [submitAnswer, hq, hb]]
        rw [gradeAnswer_ghost_incorrect _ _ _ hne]

/-- Witness for C5 as amended: submitting index 7 against the 4-option
question of bankA1 advances the total and leaves the correct count at 0. -/
theorem C5_amended_witness :
    (submitAnswer (initState 1 bankA1) (some 7)).totalQuestionsAnswered
      = (initState 1 bankA1).totalQuestionsAnswered + 1 ∧
    (submitAnswer (initState 1 bankA1) (some 7)).ghostCorrect
      = (initState 1 bankA1).ghostCorrect :=
  C5_amended_guard.2.2.2 (initState 1 bankA1) 7 q1 (by decide) (by decide)
    (by decide)

/-- C6: the tier index is monotonically non-decreasing: no submitted answer
(including the block evaluation it may trigger) and no block evaluation ever
decreases it, and along any session run it only grows as further answers are
played. -/
theorem C6_tier_index_monotone :
    (∀ s : PlacementState, ∀ o,
      s.currentLevelIndex ≤ (submitAnswer s o).currentLevelIndex) ∧
    (∀ s : PlacementState,
      s.currentLevelIndex ≤ (evaluateBlock s).currentLevelIndex) ∧
    (∀ uid bank pre post,
      (runSession uid bank pre).currentLevelIndex ≤
        (runSession uid bank (pre ++ post)).currentLevelIndex) := by
  refine ⟨submitAnswer_idx_mono, evaluateBlock_idx_mono, ?_⟩
  intro uid bank pre post
  simp only [runSession, List.foldl_append]
  exact foldl_idx_mono post _

/-- C10: every evaluated block stores exactly score, percent = score × 10 and
passed = (score ≥ 6) for the current tier, and the posted detail string for
each stored tier is "score/10" — none of these read the size of the block
actually asked. -/
theorem C10_report_fixed_denominator (s : PlacementState) (lvl : String) :
    lookupKey (evaluateBlock s).levelResults (currentLevel s) =
      some { score := s.currentLevelScore,
             percent := s.currentLevelScore * 10,
             passed := decide (6 ≤ s.currentLevelScore) } ∧
    (finishTest s lvl).submitted =
      some { user_id := s.userId, level_result := lvl,
             questions_total := s.totalQuestionsAnswered,
             correct_total := sumScores s.levelResults,
             details := s.levelResults.map
               (fun p => (p.1, toString p.2.score ++ "/10")) } := by
  constructor
  · simp only [evaluateBlock]
    split_ifs <;> simp [finishTest, lookupKey_setEntry_self]
  · rfl

end Placement

/-!
The spaced-repetition review queue.  The frontend requests due cards in
FlashcardsSession.vue through useApi.getDueFlashcards; the backend endpoint
that actually selects the due items is not part of these sources and is
modelled from the spec.
-/

namespace Review

/-- Scheduling view of a vocabulary item: identity and due timestamp. -/
structure VocabItem where
  id : Nat
  due : Nat
deriving Repr, DecidableEq

/-- Insertion into a list kept sorted by due timestamp ascending. -/
def insertByDue (x : VocabItem) : List VocabItem → List VocabItem
  | [] => [x]
  | y :: ys => if x.due ≤ y.due then x :: y :: ys else y :: insertByDue x ys

/-- Sort by due timestamp ascending. -/
def sortByDue (l : List VocabItem) : List VocabItem := l.foldr insertByDue []

/-- Modelled from the spec: the backend review-queue endpoint
GET /api/vocabulary/review (operation GetDueItems) is not in the sources.
Per the spec it returns the items whose due timestamp is ≤ now, ordered by
due timestamp ascending, capped at `limit`. -/
def getDueItems (items : List VocabItem) (now limit : Nat) : List VocabItem :=
  (sortByDue (items.filter (fun it => it.due ≤ now))).take limit

/-- The `limit` query parameter sent by useApi.getDueFlashcards: the function
declares a single parameter `limit` (default 15) and passes it through. -/
def getDueFlashcardsLimit (limit : Nat) : Nat := limit

/-- loadCards in FlashcardsSession.vue calls `getDueFlashcards(userId.value, 15)`.
The called function has only the one `limit` parameter, so JavaScript binds
userId.value to `limit` and discards the extra argument 15. -/
def loadCardsLimit (telegramUserId : Nat) : Nat :=
  getDueFlashcardsLimit telegramUserId

/-- The cards loaded into the flashcard session for a given user over a given
item store. -/
def sessionQueue (telegramUserId : Nat) (items : List VocabItem) (now : Nat) :
    List VocabItem :=
  getDueItems items now (loadCardsLimit telegramUserId)

/-- Sixteen items, all already due. -/
def dueDemo : List VocabItem :=
  (List.range 16).map (fun i => { id := i, due := i })

/-- C7, evaluated at the failing input: the modelled backend honours its
`limit` cap, but the session request carries limit = userId (the literal 15
in the call is a discarded extra argument), so for a user with id 123456789
and 16 due items the queue holds 16 cards — more than 15. -/
theorem C7_queue_can_exceed_15 :
    (∀ items now limit, (getDueItems items now limit).length ≤ limit) ∧
    loadCardsLimit 123456789 = 123456789 ∧
    (sessionQueue 123456789 dueDemo 100).length = 16 ∧
    ¬ (sessionQueue 123456789 dueDemo 100).length ≤ 15 := by
  refine ⟨?_, rfl, by decide, by decide⟩
  intro items now limit
  simp [getDueItems, List.length_take]

end Review

/-!
The daily engagement quotas.  The challenge and freeze buttons live in the
frontend sources (part_004 and StreakView.vue); the backend ledger that
enforces the quotas is not in the sources and is modelled from the spec.
-/

namespace Engagement

/-- max challenge claims per day (max_per_day in the challenges view). -/
def maxPerDay : Nat := 2

/-- Modelled from the spec: the backend endpoint
POST /api/challenges/request (operation ClaimChallengeSlot) is not in the
sources.  Per the spec: if claims-today < max_per_day (2), increment
claims-today and return a claim (success); otherwise fail with
QuotaExceededError and make no mutation.  The result pairs the updated
claims-today counter with a success flag. -/
def claimChallengeSlot (claimsToday : Nat) : Nat × Bool :=
  if claimsToday < maxPerDay then (claimsToday + 1, true)
  else (claimsToday, false)

/-- The request button in the challenges view (part_004) carries
`:disabled="remainingToday <= 0"`: once no slots remain the control is
disabled and no further claim request is issued. -/
def requestChallengeDisabled (remainingToday : Int) : Bool :=
  decide (remainingToday ≤ 0)

/-- C8: claims one and two of a day succeed and increment the counter,
claim three fails; any claim at or past the quota fails and mutates
nothing; and the client control is disabled once remaining_today ≤ 0. -/
theorem C8_two_claims_per_day :
    claimChallengeSlot 0 = (1, true) ∧
    claimChallengeSlot 1 = (2, true) ∧
    claimChallengeSlot 2 = (2, false) ∧
    (∀ c, maxPerDay ≤ c → claimChallengeSlot c = (c, false)) ∧
    (∀ n : Int, n ≤ 0 → requestChallengeDisabled n = true) := by
  refine ⟨rfl, rfl, rfl, ?_, ?_⟩
  · intro c hc
    have : ¬ c < maxPerDay := by omega
    simp [claimChallengeSlot, this]
  · intro n hn
    simp [requestChallengeDisabled, hn]

/-- Witness for C8: the fourth claim of a day fails without mutation and the
button is disabled at remaining 0. -/
theorem C8_witness :
    claimChallengeSlot 3 = (3, false) ∧ requestChallengeDisabled 0 = true :=
  ⟨C8_two_claims_per_day.2.2.2.1 3 (by decide),
   C8_two_claims_per_day.2.2.2.2 0 (by decide)⟩

/-- The freeze-related state of a learner inside one QuotaWindow. -/
structure FreezeState where
  balance : Nat
  usedToday : Bool
deriving Repr, DecidableEq

/-- Outcome of UseFreeze. -/
inductive FreezeOutcome where
  | ok (remaining : Nat)
  | noFreezeAvailable
  | freezeAlreadyUsed
deriving Repr, DecidableEq

/-- Modelled from the spec: the backend endpoint POST /api/streak/freeze
(operation UseFreeze) is not in the sources.  Per the spec it fails with
NoFreezeAvailableError if the balance is 0, with FreezeAlreadyUsedError if a
freeze was already used in the current QuotaWindow, and otherwise decrements
the balance, marks the freeze used today and returns the remaining count. -/
def useFreeze (s : FreezeState) : FreezeState × FreezeOutcome :=
  if s.balance = 0 then (s, FreezeOutcome.noFreezeAvailable)
  else if s.usedToday then (s, FreezeOutcome.freezeAlreadyUsed)
  else ({ balance := s.balance - 1, usedToday := true },
    FreezeOutcome.ok (s.balance - 1))

/-- The freeze button in StreakView.vue carries
`:disabled="!streakInfo?.freeze_available || streakInfo?.freeze_used_today"`;
0 is falsy in JavaScript, so it is disabled exactly when the available
balance is 0 or the freeze was already used today. -/
def freezeDisabled (freezeAvailable : Nat) (freezeUsedToday : Bool) : Bool :=
  decide (freezeAvailable = 0) || freezeUsedToday

/-- handleUseFreeze in StreakView.vue: on a successful response the view sets
freeze_available to the returned remaining count and freeze_used_today to
true; otherwise it leaves both untouched. -/
def handleUseFreeze (freezeAvailable : Nat) (freezeUsedToday : Bool)
    (res : Option Nat) : Nat × Bool :=
  match res with
  | some remaining => (remaining, true)
  | none => (freezeAvailable, freezeUsedToday)

/-- C9: UseFreeze fails without mutation on a zero balance
(NoFreezeAvailableError) or when already used today (FreezeAlreadyUsedError);
a successful use marks the freeze used and sets the balance to the returned
remaining count, after which no second use in the window can succeed; and
the client control cannot be initiated while used-today is set or the
balance is 0. -/
theorem C9_one_freeze_per_window :
    (∀ s : FreezeState, s.balance = 0 →
      useFreeze s = (s, FreezeOutcome.noFreezeAvailable)) ∧
    (∀ s : FreezeState, s.balance ≠ 0 → s.usedToday = true →
      useFreeze s = (s, FreezeOutcome.freezeAlreadyUsed)) ∧
    (∀ s s1 : FreezeState, ∀ n, useFreeze s = (s1, FreezeOutcome.ok n) →
      s1.usedToday = true ∧ s1.balance = n ∧
      handleUseFreeze s.balance s.usedToday (some n) = (n, true) ∧
      ∀ m, (useFreeze s1).2 ≠ FreezeOutcome.ok m) ∧
    (∀ b : Nat, ∀ u : Bool, u = true ∨ b = 0 →
      freezeDisabled b u = true) := by
  refine ⟨?_, ?_, ?_, ?_⟩
  · intro s h0
    simp [useFreeze, h0]
  · intro s hb hu
    simp [useFreeze, hb, hu]
  · intro s s1 n h
    by_cases h0 : s.balance = 0
    · simp [useFreeze, h0] at h
    · by_cases hu : s.usedToday = true
      · simp [useFreeze, h0, hu] at h
      · simp [useFreeze, h0, hu] at h
        obtain ⟨hs1, hn⟩ := h
        subst hn
        subst hs1
        refine ⟨rfl, rfl, rfl, ?_⟩
        intro m
        by_cases hb1 : s.balance - 1 = 0 <;> simp [useFreeze, hb1]
  · intro b u h
    rcases h with h | h <;> simp [freezeDisabled, h]

/-- Witness for C9: using a freeze with balance 1 and none used today marks
the freeze used, sets the balance to the returned remaining count 0, updates
the view state, and a second use in the same window cannot succeed. -/
theorem C9_witness :
    (FreezeState.mk 0 true).usedToday = true ∧
    (FreezeState.mk 0 true).balance = 0 ∧
    handleUseFreeze 1 false (some 0) = (0, true) ∧
    (useFreeze (FreezeState.mk 0 true)).2 ≠ FreezeOutcome.ok 0 := by
  have h := C9_one_freeze_per_window.2.2.1 (FreezeState.mk 1 false)
    (FreezeState.mk 0 true) 0 (by decide)
  exact ⟨h.1, h.2.1, h.2.2.1, h.2.2.2 0⟩

end Engagement
